/-
Verification of the DAO governance front-end's proposal reconciliation and
governance state engine (the `DaoGovernance` and `ProposalDetails` components
and their helpers), as a shallow embedding in Lean 4.

JavaScript `bigint` values are modelled as `Int`, JavaScript `number` values
holding integral timestamps/counts as `Int`, `Record<string, _>` objects as
association lists, and JavaScript object literals with optional keys via the
`JsField` type below (which distinguishes an absent key from a key holding
`undefined`, since the two behave differently under object spread).
-/
import Mathlib

set_option maxRecDepth 4000

namespace DaoFe

/-- Model of an optional field of a JavaScript object: the key can be absent
from the object, present with value `undefined`, or present with a value.
Absence and `undefined` read identically (`jsGet`) but differ under object
spread (`jsSpread`), which `upsertProposal` relies on. -/
inductive JsField (α : Type) where
  | absent
  | undef
  | val (a : α)
deriving DecidableEq, Repr

/-- Reading a field: both an absent key and an `undefined` value read as
`none`. -/
def jsGet {α : Type} : JsField α → Option α
  | .absent => none
  | .undef => none
  | .val a => some a

/-- Semantics of `{ ...old, ...new }` for one key: the new object's key wins
whenever the key is present in it (even when its value is `undefined`);
an absent key leaves the old value in place. -/
def jsSpread {α : Type} (old new : JsField α) : JsField α :=
  match new with
  | .absent => old
  | .undef => .undef
  | .val a => .val a

/-- Wrap a TypeScript `x : T | undefined` value whose key is present in an
object literal (e.g. `creator` in the `ProposalCreated` handler). -/
def jsOf {α : Type} : Option α → JsField α
  | none => .undef
  | some a => .val a

/-- Status field of a proposal row: `'pending' | 'confirmed'`. -/
inductive RowStatus where
  | pending
  | confirmed
deriving DecidableEq, Repr

/-- A recorded vote choice: `'for' | 'against'`. -/
inductive VoteChoice where
  | voteFor
  | voteAgainst
deriving DecidableEq, Repr

/-- The `ProposalRow` record of the governance component. `forVotes`,
`againstVotes`, `onchainId` and `createdAt` are `bigint` in the source
(arbitrary-precision integers), modelled as `Int`. `voteWindowEnd` is a
millisecond timestamp (`number`). `voterStatuses` is a
`Record<string, 'for' | 'against'>`, modelled as an association list. -/
structure ProposalRow where
  localId : String
  onchainId : JsField Int
  description : String
  creator : JsField String
  executed : JsField Bool
  status : RowStatus
  forVotes : Int
  againstVotes : Int
  createdAt : JsField Int
  voteWindowEnd : JsField Int
  voterStatuses : List (String × VoteChoice)
deriving DecidableEq, Repr

/-- The tuple returned by `daoReadContract.read.getProposal`:
`readonly [bigint, string, boolean, bigint, bigint, bigint, bigint | undefined]`
= (id, description, executed, votesFor, votesAgainst, createdAt, deadline). -/
structure OnchainProposal where
  id : Int
  description : String
  executed : Bool
  votesFor : Int
  votesAgainst : Int
  createdAt : Int
  deadline : Option Int
deriving DecidableEq, Repr

/-- JavaScript truthiness of a `bigint | undefined` read: `undefined` and `0n`
are falsy. -/
def bigTruthy : Option Int → Bool
  | none => false
  | some n => n != 0

/-- JavaScript truthiness of a `number | undefined` read: `undefined` and `0`
are falsy (`NaN` does not arise for the integral timestamps modelled here). -/
def numTruthy : Option Int → Bool
  | none => false
  | some n => n != 0

/-- JavaScript truthiness of a `boolean | undefined` read. -/
def boolTruthy : Option Bool → Bool
  | none => false
  | some b => b

/-- JavaScript truthiness of a `string | null | undefined` value: missing
values and the empty string are falsy. -/
def strOptTruthy : Option String → Bool
  | none => false
  | some s => s != ""

/-- Model of `String.prototype.toLowerCase` (for the ASCII addresses and
descriptions handled here): lower-case every character. -/
def jsToLower (s : String) : String :=
  String.mk (s.data.map Char.toLower)

/-- Model of `String.prototype.trim`: drop whitespace from both ends. -/
def jsTrim (s : String) : String :=
  String.mk (((s.data.dropWhile Char.isWhitespace).reverse.dropWhile
    Char.isWhitespace).reverse)

/-- The component's `normalizeAddress`:
`(value?: Address | string) => value?.toLowerCase() ?? ''`. -/
def normalizeAddress (value : Option String) : String :=
  match value with
  | some s => jsToLower s
  | none => ""

/-- Semantics of `{ ...m, [k]: v }` on a `Record`: an existing key is
overwritten in place, a new key is appended (JavaScript objects preserve
insertion order). -/
def recordSet {κ β : Type} [BEq κ] (m : List (κ × β)) (k : κ) (v : β) :
    List (κ × β) :=
  if (m.lookup k).isSome then
    m.map (fun p => bif p.1 == k then (k, v) else p)
  else
    m ++ [(k, v)]

/-- In-place update of the element at index `i`, modelling
`result[i] = f(result[i])` on a copied array. -/
def updateAt {α : Type} (f : α → α) : Nat → List α → List α
  | _, [] => []
  | 0, a :: l => f a :: l
  | n + 1, a :: l => a :: updateAt f n l

/-- The base object built by `emptyProposal()` before `...values` is spread in:
`{ localId, description: '', status: 'pending', forVotes: 0n, againstVotes: 0n,
voteWindowEnd: undefined, voterStatuses: {} }`. The fresh `createLocalId()`
result is passed in explicitly. Keys `onchainId`, `creator`, `executed` and
`createdAt` are absent from the literal. -/
def emptyProposal (localId : String) : ProposalRow :=
  { localId := localId
    onchainId := .absent
    description := ""
    creator := .absent
    executed := .absent
    status := .pending
    forVotes := 0
    againstVotes := 0
    createdAt := .absent
    voteWindowEnd := .undef
    voterStatuses := [] }

/-- The row built in the `ProposalCreated` watcher:
`emptyProposal({ localId: id.toString(), onchainId: id, description, creator,
status: 'confirmed' })`. The `creator` key is present even when the event's
creator argument is `undefined`. -/
def proposalCreatedRow (id : Int) (description : String)
    (creator : Option String) : ProposalRow :=
  { emptyProposal (toString id) with
    onchainId := .val id
    description := description
    creator := jsOf creator
    status := .confirmed }

/-- The optimistic row built in `handleCreate`:
`emptyProposal({ description: description.trim(), creator: address,
status: 'pending' })`. -/
def tempCreateRow (localId : String) (description : String)
    (address : String) : ProposalRow :=
  { emptyProposal localId with
    description := jsTrim description
    creator := .val address
    status := .pending }

/-- The component's `mapOnchainStruct`: maps a `getProposal` tuple to a
`ProposalRow`. `Number(proposal[5]) * 1000 + voteDurationMs` resp.
`proposal[6] ? Number(proposal[6]) * 1000 : undefined` are modelled with exact
integer arithmetic; the `creator` key is absent from the literal, and
`voterStatuses` is reset to the empty record. -/
def mapOnchainStruct (proposal : OnchainProposal) (voteDurationMs : Int) :
    ProposalRow :=
  { localId := toString proposal.id
    onchainId := .val proposal.id
    description := proposal.description
    creator := .absent
    executed := .val proposal.executed
    status := .confirmed
    forVotes := proposal.votesFor
    againstVotes := proposal.votesAgainst
    createdAt := .val proposal.createdAt
    voteWindowEnd :=
      if voteDurationMs > 0 then
        .val (proposal.createdAt * 1000 + voteDurationMs)
      else
        match proposal.deadline with
        | some d => if d != 0 then .val (d * 1000) else .undef
        | none => .undef
    voterStatuses := [] }

/-- The `findIndex` predicate of `upsertProposal`'s first branch:
`proposal.onchainId && proposal.onchainId.toString() === nextId`. -/
def idMatches (nextId : String) (p : ProposalRow) : Bool :=
  bigTruthy (jsGet p.onchainId) &&
    ((jsGet p.onchainId).map (fun i => toString i) == some nextId)

/-- The `findIndex` predicate of `upsertProposal`'s second branch: a
`'pending'` row whose normalized creator and trimmed description equal the
incoming observation's. -/
def pendingMatches (next : ProposalRow) (p : ProposalRow) : Bool :=
  p.status == RowStatus.pending &&
    normalizeAddress (jsGet p.creator) == normalizeAddress (jsGet next.creator) &&
    jsTrim p.description == jsTrim next.description

/-- The in-place merge `{ ...existing, ...nextProposal, status: 'confirmed',
localId: newLocalId }` performed by both match branches of `upsertProposal`.
Optional keys follow object-spread semantics (`jsSpread`); required keys take
the incoming row's values. -/
def confirmMerge (old next : ProposalRow) (newLocalId : String) : ProposalRow :=
  { localId := newLocalId
    onchainId := jsSpread old.onchainId next.onchainId
    description := next.description
    creator := jsSpread old.creator next.creator
    executed := jsSpread old.executed next.executed
    status := RowStatus.confirmed
    forVotes := next.forVotes
    againstVotes := next.againstVotes
    createdAt := jsSpread old.createdAt next.createdAt
    voteWindowEnd := jsSpread old.voteWindowEnd next.voteWindowEnd
    voterStatuses := next.voterStatuses }

/-- The component's `upsertProposal` (identity resolution): try an exact
on-chain-id match first; else try a pending creator+description match; else
prepend the observation as a new entry (confirmed whenever it has a truthy
on-chain id). -/
def upsertProposal (prev : List ProposalRow) (next : ProposalRow) :
    List ProposalRow :=
  let nextId : Option String := (jsGet next.onchainId).map (fun i => toString i)
  let byId : Option (List ProposalRow) :=
    match nextId with
    | some nid =>
      if nid = "" then none
      else
        match prev.findIdx? (idMatches nid) with
        | some i => some (updateAt (fun old => confirmMerge old next nid) i prev)
        | none => none
    | none => none
  match byId with
  | some res => res
  | none =>
    match prev.findIdx? (pendingMatches next) with
    | some i =>
      updateAt (fun old => confirmMerge old next (nextId.getD old.localId)) i prev
    | none =>
      { next with
        status :=
          if bigTruthy (jsGet next.onchainId) then RowStatus.confirmed
          else next.status } :: prev

/-- The per-row body of the `map` inside `updateVotes`: skip rows whose
on-chain id does not match, skip an already-counted voter, otherwise add the
weight to the matching tally and record the normalized voter. -/
def voteStep (voteKey : String) (voter : String) (support : Bool)
    (weight : Int) (p : ProposalRow) : ProposalRow :=
  if !(bigTruthy (jsGet p.onchainId)) ||
      ((jsGet p.onchainId).map (fun i => toString i) != some voteKey) then
    p
  else
    let voterKey := normalizeAddress (some voter)
    if (p.voterStatuses.lookup voterKey).isSome then
      p
    else
      { p with
        forVotes := if support then p.forVotes + weight else p.forVotes
        againstVotes := if support then p.againstVotes else p.againstVotes + weight
        voterStatuses :=
          recordSet p.voterStatuses voterKey
            (if support then VoteChoice.voteFor else VoteChoice.voteAgainst) }

/-- The component's `updateVotes(proposalId, voter, support, weight)` applied
to the proposals list. -/
def updateVotes (prev : List ProposalRow) (proposalId : Int) (voter : String)
    (support : Bool) (weight : Int) : List ProposalRow :=
  prev.map (voteStep (toString proposalId) voter support weight)

/-- Store transition performed when a `refreshProposalFromChain(proposalId)`
read resolves successfully: `upsertProposal(mapOnchainStruct(rawProposal,
voteDurationMs))`. The source merges the result unconditionally — the callback
holds no staleness flag. -/
def refreshProposalFromChain (prev : List ProposalRow) (raw : OnchainProposal)
    (voteDurationMs : Int) : List ProposalRow :=
  upsertProposal prev (mapOnchainStruct raw voteDurationMs)

/-- Store effect of one `ProposalCreated` log: drop logs whose `id` is falsy,
otherwise upsert a confirmed row built from the event arguments
(`String(args?.description ?? '')` supplies the description). -/
def ingestProposalCreated (prev : List ProposalRow) (id : Option Int)
    (description : String) (creator : Option String) : List ProposalRow :=
  match id with
  | some i => if i != 0 then upsertProposal prev (proposalCreatedRow i description creator) else prev
  | none => prev

/-- Store effect of one `Voted` log: `support` is `Boolean(args?.support)`,
`weight` is `(args?.weight as bigint | undefined) ?? 0n`; logs with a falsy id
or voter are dropped, otherwise `updateVotes` runs. -/
def ingestVoted (prev : List ProposalRow) (id : Option Int)
    (voter : Option String) (support : Option Bool) (weight : Option Int) :
    List ProposalRow :=
  match id, voter with
  | some i, some v =>
    if i != 0 && v != "" then
      updateVotes prev i v (support.getD false) (weight.getD 0)
    else prev
  | _, _ => prev

/-- The execution-eligibility expression computed per proposal in the render
body of `DaoGovernance`:

`canExecute = Boolean(proposal.onchainId) && !proposal.executed &&
quorumReached && voteWindowEnded && majorityFor && isOwner`

with `quorumReached = quorumThreshold > 0n ? totalVotes >= quorumThreshold :
false`, `voteWindowEnded = voteDurationMs === 0 || !voteWindowEndTimestamp ||
Date.now() >= voteWindowEndTimestamp`, `majorityFor = forVotes > againstVotes`
and `isOwner = ownerAddress ? normalizeAddress(ownerAddress) ===
userAddressKey : false` where `userAddressKey = normalizeAddress(address)`. -/
def canExecute (proposal : ProposalRow) (quorumThreshold : Int)
    (voteDurationMs : Int) (ownerAddress : Option String)
    (address : Option String) (now : Int) : Bool :=
  let userAddressKey := normalizeAddress address
  let totalVotes := proposal.forVotes + proposal.againstVotes
  let quorumReached :=
    if quorumThreshold > 0 then decide (totalVotes ≥ quorumThreshold) else false
  let voteWindowEndTimestamp := jsGet proposal.voteWindowEnd
  let voteWindowEnded :=
    voteDurationMs == 0 || !(numTruthy voteWindowEndTimestamp) ||
      decide (now ≥ voteWindowEndTimestamp.getD 0)
  let majorityFor := decide (proposal.forVotes > proposal.againstVotes)
  let isOwner :=
    match ownerAddress with
    | some o => if o != "" then normalizeAddress (some o) == userAddressKey else false
    | none => false
  bigTruthy (jsGet proposal.onchainId) && !(boolTruthy (jsGet proposal.executed)) &&
    quorumReached && voteWindowEnded && majorityFor && isOwner

/-- Transaction submission status used for `createStatus`. -/
inductive CreateStatus where
  | idle
  | pending
  | success
  | error
deriving DecidableEq, Repr

/-- Per-proposal vote/execution UI status. -/
inductive VoteStatus where
  | idle
  | pending
  | success
  | error
deriving DecidableEq, Repr

/-- The slice of the `DaoGovernance` component state touched by
`handleCreate`. -/
structure UiState where
  proposals : List ProposalRow
  description : String
  createStatus : CreateStatus
  createError : Option String
  voteStatuses : List (String × VoteStatus)
  executionStatuses : List (String × VoteStatus)
deriving DecidableEq, Repr

/-- Outcome of the awaited `writeContractAsync` call. -/
inductive TxOutcome where
  | ok
  | fail (message : String)
deriving DecidableEq, Repr

/-- The component's `handleCreate`: validate, insert the optimistic pending
row, submit, and on a thrown submission roll the optimistic row back by
filtering on its `localId`. The fresh `createLocalId()` value is passed in as
`tempLocalId`. -/
def handleCreate (s : UiState) (isConnected : Bool) (address : Option String)
    (tempLocalId : String) (outcome : TxOutcome) : UiState :=
  if jsTrim s.description == "" then
    { s with createError := some "Description is required" }
  else if !(isConnected && strOptTruthy address) then
    { s with createError := some "Connect your wallet to create proposals" }
  else
    let temp := tempCreateRow tempLocalId s.description (address.getD "")
    let s1 := { s with
      createError := none
      createStatus := CreateStatus.pending
      proposals := temp :: s.proposals }
    match outcome with
    | .ok => { s1 with description := "", createStatus := CreateStatus.success }
    | .fail msg =>
      { s1 with
        createStatus := CreateStatus.error
        createError := some msg
        proposals := s1.proposals.filter (fun p => p.localId != tempLocalId) }

/-- Store effect of the `loadFromBackend` callback resolving: the mapped
backend payload replaces the store, unless this run's `cancelled` flag was set
by the effect cleanup (a newer run or unmount superseded it), in which case the
result is discarded before any merge (`if (cancelled) return`). -/
def loadFromBackendResolve (cancelled : Bool) (prev mapped : List ProposalRow) :
    List ProposalRow :=
  if cancelled then prev else mapped

/-- The superseded-load interleaving for backend list loads: run A is issued;
a refresh issues run B, and React runs A's effect cleanup (setting A's
`cancelled` flag) before B starts; B resolves and merges; A's result arrives
last with its flag set. -/
def backendReloadScenario (s0 mappedA mappedB : List ProposalRow) :
    List ProposalRow :=
  loadFromBackendResolve true (loadFromBackendResolve false s0 mappedB) mappedA

/-- The `BackendProposal` DTO of `proposalsService`. Numeric vote fields may
arrive as `number` or decimal `string`; both are modelled by their integer
value. Optional keys are modelled as `Option`. -/
structure BackendProposal where
  id : Int
  description : String
  executed : Bool
  finalized : Option Bool
  creator : Option String
  votesFor : Option Int
  votesAgainst : Option Int
  executor : Option String
  createdAt : Option Int
deriving DecidableEq, Repr

/-- Outcome of one `fetchProposalById` attempt inside the polling loop. -/
inductive FetchResult where
  | found (p : BackendProposal)
  | nullResult
  | err404
  | errOther (message : String)
deriving DecidableEq, Repr

/-- The loop body of `pollProposalFromBackend`: while `Date.now() < deadline`,
fetch; return a truthy proposal; on an axios 404 stay silent (an expected
transient condition); on any other failure log a warning; then sleep
`intervalMs` and retry. `responses k` is the outcome of the `k`-th attempt;
time advances by `intervalMs` per iteration (the fetch itself is modelled as
instantaneous); `fuel` is a structural bound strictly larger than the number of
iterations the deadline permits. -/
def pollLoop (responses : Nat → FetchResult) :
    Nat → Nat → Int → Int → Int → List String →
    Option BackendProposal × List String
  | 0, _, _, _, _, log => (none, log)
  | fuel + 1, k, now, deadline, intervalMs, log =>
    if now < deadline then
      match responses k with
      | .found p => (some p, log)
      | .nullResult => pollLoop responses fuel (k + 1) (now + intervalMs) deadline intervalMs log
      | .err404 => pollLoop responses fuel (k + 1) (now + intervalMs) deadline intervalMs log
      | .errOther msg =>
        pollLoop responses fuel (k + 1) (now + intervalMs) deadline intervalMs
          (log ++ [msg])
    else
      (none, log)

/-- The component's `pollProposalFromBackend(proposalId, timeoutMs = 10_000,
intervalMs = 1_000)` with its default parameters: the deadline is
`Date.now() + 10_000` and attempts are spaced `1_000` ms apart, so attempts
`k = 0, …, 9` occur before the deadline. -/
def pollProposalFromBackend (responses : Nat → FetchResult) (startTime : Int) :
    Option BackendProposal × List String :=
  pollLoop responses 11 0 startTime (startTime + 10000) 1000 []

/-- The react-query caches written by `upsertProposalCaches`: the
`['proposal', id]` entry and the `['proposals', 'list']` response
`{ total, proposals }`. -/
structure Caches where
  byId : List (Int × BackendProposal)
  list : Option (Int × List BackendProposal)
deriving DecidableEq, Repr

/-- The component's `upsertProposalCaches`: overwrite the per-id cache entry;
in the list cache replace the row with the same id if one exists, else prepend
it and bump `total`. -/
def upsertProposalCaches (c : Caches) (proposal : BackendProposal) : Caches :=
  { byId := recordSet c.byId proposal.id proposal
    list :=
      match c.list with
      | none => some (1, [proposal])
      | some (total, proposals) =>
        let already := proposals.any (fun item => item.id == proposal.id)
        let proposals1 :=
          if already then
            proposals.map (fun item => if item.id == proposal.id then proposal else item)
          else proposal :: proposals
        some ((if already then total else total + 1), proposals1) }

/-- The tail of `handleCreate` after a successful write: merge the polled
proposal into the caches when the poll succeeded; on a `null` poll result keep
the caches as they are and log a warning (`createStatus` was already set to
`'success'` before the poll and is not touched). -/
def afterCreatePoll (c : Caches) (synced : Option BackendProposal)
    (createdId : Int) : Caches × List String :=
  match synced with
  | some p => (upsertProposalCaches c p, [])
  | none =>
    (c, ["Proposal #" ++ toString createdId ++
      " was not available from backend after waiting 10 seconds."])

/-! Concrete sample data used to instantiate the theorems below. -/

/-- A confirmed row as it typically sits in the store: on-chain id 1, no votes
counted yet. -/
def sampleRow (forVotes againstVotes : Int)
    (voterStatuses : List (String × VoteChoice)) : ProposalRow :=
  { localId := "1"
    onchainId := .val 1
    description := "fund the grants program"
    creator := .val "0xCreator"
    executed := .val false
    status := .confirmed
    forVotes := forVotes
    againstVotes := againstVotes
    createdAt := .val 1700000000
    voteWindowEnd := .val 1700000600000
    voterStatuses := voterStatuses }

/-- An optimistic pending row created by `handleCreate` (claim C1). -/
def c1Pending : ProposalRow := tempCreateRow "tmp-uuid-1" " fund the grants program " "0xABCDE"

/-- The matching `ProposalCreated` observation with real id 5 (claim C1). -/
def c1Event : ProposalRow :=
  proposalCreatedRow 5 "fund the grants program" (some "0xabcde")

/-- A store entry whose locally accumulated tally is 5 (claim C3). -/
def c3Row : ProposalRow := sampleRow 5 0 [("0xaa", VoteChoice.voteFor)]

/-- An authoritative chain read reporting only 3 votes for (claim C3). -/
def c3Raw : OnchainProposal :=
  { id := 1, description := "fund the grants program", executed := false,
    votesFor := 3, votesAgainst := 0, createdAt := 1700000000, deadline := none }

/-- A proposal with 99 total votes: 60 for, 39 against (claim C4). -/
def c4Row99 : ProposalRow := sampleRow 60 39 []

/-- A proposal with 100 total votes: 60 for, 40 against (claim C4). -/
def c4Row100 : ProposalRow := sampleRow 60 40 []

/-- A proposal whose `voteWindowEnd` is `undefined` while every other
`canExecute` input is satisfied (claim C5). -/
def c5Row : ProposalRow :=
  { sampleRow 61 40 [] with voteWindowEnd := .undef }

/-- The stored row for proposal 7 before any reconciliation (claim C6). -/
def c6Row0 : ProposalRow :=
  { sampleRow 0 0 [] with localId := "7", onchainId := .val 7 }

/-- The stale chain read request A resolves with (claim C6). -/
def c6RawA : OnchainProposal :=
  { id := 7, description := "fund the grants program", executed := false,
    votesFor := 3, votesAgainst := 0, createdAt := 1700000000, deadline := none }

/-- The fresh chain read request B resolves with (claim C6). -/
def c6RawB : OnchainProposal :=
  { id := 7, description := "fund the grants program", executed := false,
    votesFor := 7, votesAgainst := 0, createdAt := 1700000000, deadline := none }

/-- A component state about to run `handleCreate` (claim C7). -/
def c7State : UiState :=
  { proposals := [sampleRow 0 0 []]
    description := " a new idea "
    createStatus := CreateStatus.idle
    createError := none
    voteStatuses := [("1", VoteStatus.success)]
    executionStatuses := [("1", VoteStatus.idle)] }

/-- A store entry awaiting a `Voted` event with no reported weight (claim C8). -/
def c8Row : ProposalRow := sampleRow 0 0 []

/-- A backend proposal used as the successful poll payload (claim C9). -/
def c9Proposal : BackendProposal :=
  { id := 9, description := "fund the grants program", executed := false,
    finalized := none, creator := some "0xCreator", votesFor := some 1,
    votesAgainst := some 0, executor := none, createdAt := some 1700000000 }

/-- A store entry with one voter already counted locally (claim C10). -/
def c10Row : ProposalRow := sampleRow 5 0 [("0xaa", VoteChoice.voteFor)]

/-- The checkpoint read arriving for that entry (claim C10). -/
def c10Raw : OnchainProposal :=
  { id := 1, description := "fund the grants program", executed := false,
    votesFor := 5, votesAgainst := 0, createdAt := 1700000000, deadline := none }

/-! Auxiliary lemmas. -/

theorem jsGet_eq_some_iff {α : Type} (f : JsField α) (a : α) :
    jsGet f = some a ↔ f = JsField.val a := by
  cases f <;> simp [jsGet]

theorem updateAt_length {α : Type} (f : α → α) (i : Nat) (l : List α) :
    (updateAt f i l).length = l.length := by
  induction l generalizing i with
  | nil => cases i <;> rfl
  | cons a l ih =>
    cases i with
    | zero => rfl
    | succ n => simpa [updateAt] using ih n

theorem updateAt_getElem?_self {α : Type} (f : α → α) (i : Nat) (l : List α)
    (a : α) (h : l[i]? = some a) : (updateAt f i l)[i]? = some (f a) := by
  induction l generalizing i with
  | nil => simp at h
  | cons b l ih =>
    cases i with
    | zero => simp_all [updateAt]
    | succ n => simpa [updateAt] using ih n (by simpa using h)

theorem updateAt_getElem?_ne {α : Type} (f : α → α) (i j : Nat) (l : List α)
    (h : j ≠ i) : (updateAt f i l)[j]? = l[j]? := by
  induction l generalizing i j with
  | nil => simp [updateAt]
  | cons b l ih =>
    cases i with
    | zero =>
      cases j with
      | zero => exact absurd rfl h
      | succ m => simp [updateAt]
    | succ n =>
      cases j with
      | zero => simp [updateAt]
      | succ m => simpa [updateAt] using ih n m (fun hh => h (by omega))

theorem countP_updateAt_eq_one {α : Type} (p : α → Bool) (f : α → α)
    (i : Nat) (l : List α) (a : α) (ha : l[i]? = some a)
    (hall : ∀ x ∈ l, p x = false) (hf : p (f a) = true) :
    (updateAt f i l).countP p = 1 := by
  induction l generalizing i with
  | nil => simp at ha
  | cons b l ih =>
    cases i with
    | zero =>
      simp only [List.getElem?_cons_zero, Option.some.injEq] at ha
      subst ha
      have hz : l.countP p = 0 := by
        rw [List.countP_eq_zero]
        intro x hx
        simpa using hall x (List.mem_cons_of_mem _ hx)
      simp [updateAt, List.countP_cons, hf, hz]
    | succ n =>
      have hb : p b = false := hall b (List.mem_cons_self _ _)
      have h1 : (updateAt f n l).countP p = 1 :=
        ih n (by simpa using ha) (fun x hx => hall x (List.mem_cons_of_mem _ hx))
      simp [updateAt, List.countP_cons, hb, h1]

theorem lookup_map_replace {κ β : Type} [BEq κ] [LawfulBEq κ]
    (m : List (κ × β)) (k : κ) (v : β) (h : (m.lookup k).isSome) :
    (m.map (fun p => bif p.1 == k then (k, v) else p)).lookup k = some v := by
  induction m with
  | nil => simp at h
  | cons p m ih =>
    obtain ⟨a, b⟩ := p
    by_cases hak : a = k
    · subst hak
      simp [List.lookup_cons]
    · have h1 : (a == k) = false := by simpa using hak
      have h2 : (k == a) = false := by simpa using fun e => hak e.symm
      have hm : (m.lookup k).isSome = true := by
        simpa [List.lookup_cons, h2] using h
      simpa [List.lookup_cons, h1, h2] using ih hm

theorem lookup_append_right {κ β : Type} [BEq κ] [LawfulBEq κ]
    (m : List (κ × β)) (k : κ) (v : β) (h : m.lookup k = none) :
    ((m ++ [(k, v)]).lookup k) = some v := by
  induction m with
  | nil => simp [List.lookup]
  | cons p m ih =>
    obtain ⟨a, b⟩ := p
    cases hka : (k == a) with
    | true =>
      exfalso
      simp [List.lookup, hka] at h
    | false =>
      have hm : m.lookup k = none := by simpa [List.lookup, hka] using h
      simpa [List.lookup, hka] using ih hm

theorem lookup_recordSet_self {κ β : Type} [BEq κ] [LawfulBEq κ]
    (m : List (κ × β)) (k : κ) (v : β) :
    (recordSet m k v).lookup k = some v := by
  unfold recordSet
  split
  · exact lookup_map_replace m k v (by assumption)
  · refine lookup_append_right m k v ?_
    rename_i h
    cases hm : m.lookup k with
    | none => rfl
    | some w => simp [hm] at h

theorem toDigitsCore_length_le (b f : Nat) :
    ∀ (n : Nat) (l : List Char), l.length ≤ (Nat.toDigitsCore b f n l).length := by
  induction f with
  | zero => intro n l; simp [Nat.toDigitsCore]
  | succ f ih =>
    intro n l
    simp only [Nat.toDigitsCore]
    split
    · simp
    · exact le_trans (by simp) (ih (n / b) (Nat.digitChar (n % b) :: l))

theorem toDigits_ne_nil (b n : Nat) : Nat.toDigits b n ≠ [] := by
  unfold Nat.toDigits
  simp only [Nat.toDigitsCore]
  split
  · simp
  · intro h
    have h1 := toDigitsCore_length_le b n (n / b) [Nat.digitChar (n % b)]
    rw [h] at h1
    simp at h1

theorem nat_repr_ne_empty (n : Nat) : Nat.repr n ≠ "" := by
  unfold Nat.repr
  intro h
  apply toDigits_ne_nil 10 n
  have h2 := congrArg String.data h
  simpa [List.asString] using h2

theorem toString_int_ne_empty (i : Int) : toString i ≠ "" := by
  cases i with
  | ofNat n =>
    show Nat.repr n ≠ ""
    exact nat_repr_ne_empty n
  | negSucc n =>
    show "-" ++ toString (n + 1) ≠ ""
    intro h
    have h2 := congrArg String.data h
    simp [String.data_append] at h2

theorem upsertProposal_byId (prev : List ProposalRow) (next : ProposalRow)
    (id : Int) (i : Nat)
    (hid : jsGet next.onchainId = some id)
    (hfind : prev.findIdx? (idMatches (toString id)) = some i) :
    upsertProposal prev next =
      updateAt (fun old => confirmMerge old next (toString id)) i prev := by
  have h0 : ¬ (toString id = "") := toString_int_ne_empty id
  simp [upsertProposal, hid, h0, hfind]

theorem upsertProposal_pendingResolve (prev : List ProposalRow)
    (next : ProposalRow) (id : Int) (i : Nat)
    (hid : jsGet next.onchainId = some id)
    (hnone : prev.findIdx? (idMatches (toString id)) = none)
    (hfind : prev.findIdx? (pendingMatches next) = some i) :
    upsertProposal prev next =
      updateAt (fun old => confirmMerge old next (toString id)) i prev := by
  have h0 : ¬ (toString id = "") := toString_int_ne_empty id
  simp [upsertProposal, hid, h0, hnone, hfind]

theorem upsertProposal_prepend (prev : List ProposalRow) (next : ProposalRow)
    (id : Int)
    (hid : jsGet next.onchainId = some id) (hz : id ≠ 0)
    (hnone : prev.findIdx? (idMatches (toString id)) = none)
    (hnone2 : prev.findIdx? (pendingMatches next) = none) :
    upsertProposal prev next =
      { next with status := RowStatus.confirmed } :: prev := by
  have h0 : ¬ (toString id = "") := toString_int_ne_empty id
  have hb : bigTruthy (some id) = true := by
    simp [bigTruthy, hz]
  simp [upsertProposal, hid, h0, hnone, hnone2, hb]

theorem voteStep_idem (vk v : String) (s : Bool) (w : Int) (p : ProposalRow) :
    voteStep vk v s w (voteStep vk v s w p) = voteStep vk v s w p := by
  by_cases h1 : (!(bigTruthy (jsGet p.onchainId)) ||
      ((jsGet p.onchainId).map (fun i => toString i) != some vk)) = true
  · simp [voteStep, h1]
  · by_cases h2 : (p.voterStatuses.lookup (normalizeAddress (some v))).isSome
    · simp [voteStep, h1, h2]
    · simp [voteStep, h1, h2, lookup_recordSet_self]

theorem updateVotes_idem (prev : List ProposalRow) (proposalId : Int)
    (voter : String) (support : Bool) (weight : Int) :
    updateVotes (updateVotes prev proposalId voter support weight)
        proposalId voter support weight =
      updateVotes prev proposalId voter support weight := by
  unfold updateVotes
  rw [List.map_map]
  apply List.map_congr_left
  intro a _
  exact voteStep_idem _ _ _ _ a


/-! Claim theorems. -/

/-- C1: upserting an observation that carries a real on-chain id resolves, in
order: (1) an exact on-chain-id match, which is updated in place; (2) else the
first Pending entry with the same normalized creator and trimmed description,
which is updated in place, its status advanced to Confirmed and its localId
replaced by the on-chain id, leaving exactly one row for that id and the store
length unchanged; (3) else the observation is prepended as a new (confirmed)
entry. -/
theorem c1_upsert_identity_resolution :
    (∀ (prev : List ProposalRow) (next : ProposalRow) (id : Int) (i : Nat),
      jsGet next.onchainId = some id → id ≠ 0 →
      prev.findIdx? (idMatches (toString id)) = none →
      prev.findIdx? (pendingMatches next) = some i →
      ∃ old, prev[i]? = some old ∧ old.status = RowStatus.pending ∧
        upsertProposal prev next =
          updateAt (fun o => confirmMerge o next (toString id)) i prev ∧
        (upsertProposal prev next)[i]? =
          some (confirmMerge old next (toString id)) ∧
        (confirmMerge old next (toString id)).status = RowStatus.confirmed ∧
        (confirmMerge old next (toString id)).localId = toString id ∧
        (confirmMerge old next (toString id)).onchainId = JsField.val id ∧
        (upsertProposal prev next).length = prev.length ∧
        (upsertProposal prev next).countP (idMatches (toString id)) = 1) ∧
    (∀ (prev : List ProposalRow) (next : ProposalRow) (id : Int) (i : Nat),
      jsGet next.onchainId = some id →
      prev.findIdx? (idMatches (toString id)) = some i →
      upsertProposal prev next =
        updateAt (fun o => confirmMerge o next (toString id)) i prev) ∧
    (∀ (prev : List ProposalRow) (next : ProposalRow) (id : Int),
      jsGet next.onchainId = some id → id ≠ 0 →
      prev.findIdx? (idMatches (toString id)) = none →
      prev.findIdx? (pendingMatches next) = none →
      upsertProposal prev next =
        { next with status := RowStatus.confirmed } :: prev) := by
  refine ⟨?_, ?_, ?_⟩
  · intro prev next id i hid hz hnone hfind
    obtain ⟨hlt, hp, hbefore⟩ := List.findIdx?_eq_some_iff_getElem.mp hfind
    have hget : prev[i]? = some prev[i] := List.getElem?_eq_getElem hlt
    refine ⟨prev[i], hget, ?_, ?_, ?_, ?_, ?_, ?_, ?_, ?_⟩
    · have hands := (Bool.and_eq_true _ _).mp ((Bool.and_eq_true _ _).mp hp).1
      exact eq_of_beq hands.1
    · exact upsertProposal_pendingResolve prev next id i hid hnone hfind
    · rw [upsertProposal_pendingResolve prev next id i hid hnone hfind]
      exact updateAt_getElem?_self _ i prev _ hget
    · rfl
    · rfl
    · have hv : next.onchainId = JsField.val id := (jsGet_eq_some_iff _ _).mp hid
      simp [confirmMerge, hv, jsSpread]
    · rw [upsertProposal_pendingResolve prev next id i hid hnone hfind]
      exact updateAt_length _ i prev
    · rw [upsertProposal_pendingResolve prev next id i hid hnone hfind]
      refine countP_updateAt_eq_one _ _ i prev _ hget ?_ ?_
      · intro x hx
        exact List.findIdx?_eq_none_iff.mp hnone x hx
      · have hv : next.onchainId = JsField.val id := (jsGet_eq_some_iff _ _).mp hid
        simp [idMatches, confirmMerge, hv, jsSpread, jsGet, bigTruthy, hz]
  · intro prev next id i hid hfind
    exact upsertProposal_byId prev next id i hid hfind
  · intro prev next id hid hz hnone hnone2
    exact upsertProposal_prepend prev next id hid hz hnone hnone2

/-- Witness for C1: a concrete Pending proposal (trimmed description
"fund the grants program", creator 0xABCDE) is resolved in place by the
matching `ProposalCreated` observation carrying id 5. -/
theorem c1_upsert_identity_resolution_witness :
    (jsGet c1Event.onchainId = some 5 ∧ (5 : Int) ≠ 0 ∧
      [c1Pending].findIdx? (idMatches (toString (5 : Int))) = none ∧
      [c1Pending].findIdx? (pendingMatches c1Event) = some 0) ∧
    (∃ old, [c1Pending][0]? = some old ∧ old.status = RowStatus.pending ∧
      upsertProposal [c1Pending] c1Event =
        updateAt (fun o => confirmMerge o c1Event (toString (5 : Int))) 0 [c1Pending] ∧
      (upsertProposal [c1Pending] c1Event)[0]? =
        some (confirmMerge old c1Event (toString (5 : Int))) ∧
      (confirmMerge old c1Event (toString (5 : Int))).status = RowStatus.confirmed ∧
      (confirmMerge old c1Event (toString (5 : Int))).localId = toString (5 : Int) ∧
      (confirmMerge old c1Event (toString (5 : Int))).onchainId = JsField.val 5 ∧
      (upsertProposal [c1Pending] c1Event).length = [c1Pending].length ∧
      (upsertProposal [c1Pending] c1Event).countP (idMatches (toString (5 : Int))) = 1) :=
  ⟨⟨by decide, by decide, by decide, by decide⟩,
    c1_upsert_identity_resolution.1 [c1Pending] c1Event 5 0
      (by decide) (by decide) (by decide) (by decide)⟩

/-- C2: vote ingestion is idempotent per (proposal, voter): applying the same
`(proposalId, voter, support, weight)` observation N ≥ 1 times equals applying
it once; a repeat for an address already present in `voterStatuses` leaves the
row unchanged; and the first application adds the weight to the matching tally
and records the normalized (lower-cased) voter's choice. -/
theorem c2_vote_ingestion_idempotent :
    (∀ (prev : List ProposalRow) (proposalId : Int) (voter : String)
        (support : Bool) (weight : Int),
      updateVotes (updateVotes prev proposalId voter support weight)
          proposalId voter support weight =
        updateVotes prev proposalId voter support weight) ∧
    (∀ (n : Nat), 1 ≤ n →
      ∀ (prev : List ProposalRow) (proposalId : Int) (voter : String)
        (support : Bool) (weight : Int),
      Nat.iterate (fun s => updateVotes s proposalId voter support weight) n prev =
        updateVotes prev proposalId voter support weight) ∧
    (∀ (vk voter : String) (support : Bool) (weight : Int) (p : ProposalRow),
      (p.voterStatuses.lookup (normalizeAddress (some voter))).isSome →
      voteStep vk voter support weight p = p) ∧
    (∀ (proposalId : Int) (voter : String) (support : Bool) (weight : Int)
        (p : ProposalRow),
      bigTruthy (jsGet p.onchainId) = true →
      (jsGet p.onchainId).map (fun i => toString i) = some (toString proposalId) →
      p.voterStatuses.lookup (normalizeAddress (some voter)) = none →
      (voteStep (toString proposalId) voter support weight p).forVotes =
          p.forVotes + (if support then weight else 0) ∧
      (voteStep (toString proposalId) voter support weight p).againstVotes =
          p.againstVotes + (if support then 0 else weight) ∧
      (voteStep (toString proposalId) voter support weight p).voterStatuses.lookup
          (normalizeAddress (some voter)) =
        some (if support then VoteChoice.voteFor else VoteChoice.voteAgainst)) := by
  refine ⟨?_, ?_, ?_, ?_⟩
  · intro prev proposalId voter support weight
    exact updateVotes_idem prev proposalId voter support weight
  · intro n hn prev proposalId voter support weight
    obtain ⟨m, rfl⟩ : ∃ m, n = m + 1 := ⟨n - 1, by omega⟩
    have key : ∀ (j : Nat) (x : List ProposalRow),
        Nat.iterate (fun s => updateVotes s proposalId voter support weight) j
          (updateVotes x proposalId voter support weight) =
        updateVotes x proposalId voter support weight := by
      intro j
      induction j with
      | zero => intro x; rfl
      | succ k ih =>
        intro x
        simp only [Function.iterate_succ_apply]
        rw [updateVotes_idem]
        exact ih x
    simp only [Function.iterate_succ_apply]
    exact key m prev
  · intro vk voter support weight p h
    by_cases h1 : (!(bigTruthy (jsGet p.onchainId)) ||
        ((jsGet p.onchainId).map (fun i => toString i) != some vk)) = true
    · simp [voteStep, h1]
    · simp [voteStep, h1, h]
  · intro proposalId voter support weight p hb hmap hlk
    have h1 : (!(bigTruthy (jsGet p.onchainId)) ||
        ((jsGet p.onchainId).map (fun i => toString i) !=
          some (toString proposalId))) = false := by
      simp [hb, hmap]
    cases support <;>
      simp [voteStep, h1, hlk, lookup_recordSet_self]

/-- Witness for C2: applying the same vote observation three times to a
concrete store equals applying it once, and a first application on a fresh
voter adds its weight of 2 to the For tally. -/
theorem c2_vote_ingestion_idempotent_witness :
    ((1 : Nat) ≤ 3 ∧
      Nat.iterate (fun s => updateVotes s 1 "0xVoterA" true 2) 3 [sampleRow 0 0 []] =
        updateVotes [sampleRow 0 0 []] 1 "0xVoterA" true 2) ∧
    (bigTruthy (jsGet (sampleRow 0 0 []).onchainId) = true ∧
      (jsGet (sampleRow 0 0 []).onchainId).map (fun i => toString i) =
        some (toString (1 : Int)) ∧
      (sampleRow 0 0 []).voterStatuses.lookup (normalizeAddress (some "0xVoterA")) = none ∧
      (voteStep (toString (1 : Int)) "0xVoterA" true 2 (sampleRow 0 0 [])).forVotes =
        (sampleRow 0 0 []).forVotes + (if true then 2 else 0)) :=
  ⟨⟨by decide,
      c2_vote_ingestion_idempotent.2.1 3 (by decide) [sampleRow 0 0 []] 1 "0xVoterA" true 2⟩,
    by decide, by decide, by decide,
    (c2_vote_ingestion_idempotent.2.2.2 1 "0xVoterA" true 2 (sampleRow 0 0 [])
      (by decide) (by decide) (by decide)).1⟩



/-- C3: a chain-state re-read is a checkpoint overwrite, never additive: when
the store holds an entry matching the read's on-chain id, the resolved read
replaces that entry's `forVotes`, `againstVotes`, `executed` and `createdAt`
wholesale with the authoritative struct's values, regardless of any locally
accumulated tallies. -/
theorem c3_chain_checkpoint_overwrite :
    ∀ (prev : List ProposalRow) (raw : OnchainProposal) (voteDurationMs : Int)
      (i : Nat),
      prev.findIdx? (idMatches (toString raw.id)) = some i →
      ∃ old, prev[i]? = some old ∧
        refreshProposalFromChain prev raw voteDurationMs =
          updateAt (fun o => confirmMerge o (mapOnchainStruct raw voteDurationMs)
            (toString raw.id)) i prev ∧
        (refreshProposalFromChain prev raw voteDurationMs)[i]? =
          some (confirmMerge old (mapOnchainStruct raw voteDurationMs)
            (toString raw.id)) ∧
        (confirmMerge old (mapOnchainStruct raw voteDurationMs)
          (toString raw.id)).forVotes = raw.votesFor ∧
        (confirmMerge old (mapOnchainStruct raw voteDurationMs)
          (toString raw.id)).againstVotes = raw.votesAgainst ∧
        (confirmMerge old (mapOnchainStruct raw voteDurationMs)
          (toString raw.id)).executed = JsField.val raw.executed ∧
        (confirmMerge old (mapOnchainStruct raw voteDurationMs)
          (toString raw.id)).createdAt = JsField.val raw.createdAt := by
  intro prev raw dur i hfind
  have hid : jsGet (mapOnchainStruct raw dur).onchainId = some raw.id := rfl
  obtain ⟨hlt, hp, hbefore⟩ := List.findIdx?_eq_some_iff_getElem.mp hfind
  have hget : prev[i]? = some prev[i] := List.getElem?_eq_getElem hlt
  have heq := upsertProposal_byId prev (mapOnchainStruct raw dur) raw.id i hid hfind
  refine ⟨prev[i], hget, heq, ?_, rfl, rfl, rfl, rfl⟩
  rw [show refreshProposalFromChain prev raw dur =
    updateAt (fun o => confirmMerge o (mapOnchainStruct raw dur) (toString raw.id))
      i prev from heq]
  exact updateAt_getElem?_self _ i prev _ hget

/-- Witness for C3: a store entry with locally accumulated `forVotes = 5`
receives a chain read reporting `votesFor = 3`; the stored value becomes
exactly 3 — not the sum 8. -/
theorem c3_chain_checkpoint_overwrite_witness :
    ([c3Row].findIdx? (idMatches (toString c3Raw.id)) = some 0) ∧
    (∃ old, [c3Row][0]? = some old ∧
      refreshProposalFromChain [c3Row] c3Raw 0 =
        updateAt (fun o => confirmMerge o (mapOnchainStruct c3Raw 0)
          (toString c3Raw.id)) 0 [c3Row] ∧
      (refreshProposalFromChain [c3Row] c3Raw 0)[0]? =
        some (confirmMerge old (mapOnchainStruct c3Raw 0) (toString c3Raw.id)) ∧
      (confirmMerge old (mapOnchainStruct c3Raw 0) (toString c3Raw.id)).forVotes =
        c3Raw.votesFor ∧
      (confirmMerge old (mapOnchainStruct c3Raw 0) (toString c3Raw.id)).againstVotes =
        c3Raw.votesAgainst ∧
      (confirmMerge old (mapOnchainStruct c3Raw 0) (toString c3Raw.id)).executed =
        JsField.val c3Raw.executed ∧
      (confirmMerge old (mapOnchainStruct c3Raw 0) (toString c3Raw.id)).createdAt =
        JsField.val c3Raw.createdAt) ∧
    c3Raw.votesFor ≠ c3Row.forVotes + c3Raw.votesFor :=
  ⟨by decide, c3_chain_checkpoint_overwrite [c3Row] c3Raw 0 0 (by decide), by decide⟩

/-- C4: `canExecute` requires strict majority and quorum: it is `true` only
if `forVotes > againstVotes` and `forVotes + againstVotes ≥ quorumThreshold`;
a tie never passes, and with `quorumThreshold = 100` a total of 99 votes fails
while a total of 100 passes (all other conditions held fixed and satisfied). -/
theorem c4_canExecute_majority_and_quorum :
    (∀ (p : ProposalRow) (qt dur : Int) (owner addr : Option String) (now : Int),
      canExecute p qt dur owner addr now = true →
      p.forVotes > p.againstVotes ∧ p.forVotes + p.againstVotes ≥ qt) ∧
    (∀ (p : ProposalRow) (qt dur : Int) (owner addr : Option String) (now : Int),
      p.forVotes = p.againstVotes →
      canExecute p qt dur owner addr now = false) ∧
    canExecute c4Row99 100 0 (some "0xOwner") (some "0xowner") 1700009999999 = false ∧
    canExecute c4Row100 100 0 (some "0xOwner") (some "0xowner") 1700009999999 = true := by
  refine ⟨?_, ?_, by decide, by decide⟩
  · intro p qt dur owner addr now h
    simp only [canExecute, Bool.and_eq_true] at h
    obtain ⟨⟨⟨⟨⟨h1, h2⟩, h3⟩, h4⟩, h5⟩, h6⟩ := h
    constructor
    · exact of_decide_eq_true h5
    · by_cases hq : qt > 0
      · rw [if_pos hq] at h3
        exact of_decide_eq_true h3
      · rw [if_neg hq] at h3
        exact absurd h3 (by simp)
  · intro p qt dur owner addr now hEq
    simp [canExecute, hEq]

/-- Witness for C4: the 100-vote proposal is executable, and the theorem then
yields its majority and quorum facts. -/
theorem c4_canExecute_majority_and_quorum_witness :
    canExecute c4Row100 100 0 (some "0xOwner") (some "0xowner") 1700009999999 = true ∧
    (c4Row100.forVotes > c4Row100.againstVotes ∧
      c4Row100.forVotes + c4Row100.againstVotes ≥ 100) :=
  ⟨by decide,
    c4_canExecute_majority_and_quorum.1 c4Row100 100 0 (some "0xOwner")
      (some "0xowner") 1700009999999 (by decide)⟩

/-- Counterexample to C5 as stated: a proposal whose `voteWindowEnd` is
`undefined` (and `voteDurationMs = 5000 > 0`, `now = 0`) still has
`canExecute = true` — the code treats a missing vote window as already
elapsed, so `canExecute` does not require `voteWindowEnd` to be defined. -/
theorem c5_counterexample :
    canExecute c5Row 100 5000 (some "0xOwner") (some "0xowner") 0 = true ∧
    jsGet c5Row.voteWindowEnd = none := by decide

/-- C5 (amended): `canExecute` is `true` only if the vote-window condition of
the code holds — `voteDurationMs = 0`, or `voteWindowEnd` missing or zero, or
`now ≥ voteWindowEnd` — and the proposal is not marked executed, and the
owner address is non-null and its normalized form equals the normalized
caller address. In particular, when `voteDurationMs > 0` and `voteWindowEnd`
is a defined nonzero timestamp, `now ≥ voteWindowEnd` is required. -/
theorem c5_canExecute_window_owner_gating :
    ∀ (p : ProposalRow) (qt dur : Int) (owner addr : Option String) (now : Int),
      canExecute p qt dur owner addr now = true →
      (dur = 0 ∨ numTruthy (jsGet p.voteWindowEnd) = false ∨
        now ≥ (jsGet p.voteWindowEnd).getD 0) ∧
      boolTruthy (jsGet p.executed) = false ∧
      ∃ o, owner = some o ∧ o ≠ "" ∧
        normalizeAddress (some o) = normalizeAddress addr := by
  intro p qt dur owner addr now h
  simp only [canExecute, Bool.and_eq_true] at h
  obtain ⟨⟨⟨⟨⟨h1, h2⟩, h3⟩, h4⟩, h5⟩, h6⟩ := h
  refine ⟨?_, ?_, ?_⟩
  · rcases Bool.or_eq_true_iff.mp h4 with h | h
    · rcases Bool.or_eq_true_iff.mp h with h | h
      · exact Or.inl (by simpa using h)
      · exact Or.inr (Or.inl (by simpa using h))
    · exact Or.inr (Or.inr (of_decide_eq_true h))
  · simpa using h2
  · cases owner with
    | none => simp at h6
    | some o =>
      cases ho : (o != "") with
      | false => simp [ho] at h6
      | true =>
        simp only [ho, if_true] at h6
        refine ⟨o, rfl, by simpa using ho, by simpa using h6⟩

/-- Witness for C5 (amended): applied to the concrete executable proposal of
the counterexample, the theorem yields the window disjunction (satisfied here
through the missing-window disjunct), the unexecuted flag, and the owner
equality. -/
theorem c5_canExecute_window_owner_gating_witness :
    canExecute c5Row 100 5000 (some "0xOwner") (some "0xowner") 0 = true ∧
    (((5000 : Int) = 0 ∨ numTruthy (jsGet c5Row.voteWindowEnd) = false ∨
        (0 : Int) ≥ (jsGet c5Row.voteWindowEnd).getD 0) ∧
      boolTruthy (jsGet c5Row.executed) = false ∧
      ∃ o, (some "0xOwner" : Option String) = some o ∧ o ≠ "" ∧
        normalizeAddress (some o) = normalizeAddress (some "0xowner")) :=
  ⟨by decide,
    c5_canExecute_window_owner_gating c5Row 100 5000 (some "0xOwner")
      (some "0xowner") 0 (by decide)⟩



/-- Counterexample to C6 as stated: chain-state re-reads
(`refreshProposalFromChain`) carry no request-is-still-current flag. In the
interleaving "request A issued for proposal 7, request B issued, B's result
merged, A's stale result arrives last", A's late result is merged and
overwrites B's: the stored tally ends at A's stale 3, not B's 7. -/
theorem c6_counterexample :
    (refreshProposalFromChain (refreshProposalFromChain [c6Row0] c6RawB 0)
        c6RawA 0).map (fun p => p.forVotes) = [3] ∧
    (refreshProposalFromChain [c6Row0] c6RawB 0).map (fun p => p.forVotes) = [7] ∧
    (3 : Int) ≠ 7 := by decide

/-- C6 (amended): the stale-response guard holds for backend list loads only:
a superseded `loadFromBackend` run has its `cancelled` flag set by the effect
cleanup before the newer run starts, so its late result is discarded before
merging and the newer run's result survives. Chain-state re-reads have no such
guard and merge late results unconditionally (see the counterexample). -/
theorem c6_backend_stale_guard :
    ∀ (s0 mappedA mappedB : List ProposalRow),
      backendReloadScenario s0 mappedA mappedB = mappedB ∧
      loadFromBackendResolve true s0 mappedA = s0 := by
  intro s0 mA mB
  constructor <;> simp [backendReloadScenario, loadFromBackendResolve]

/-- C7: atomic rollback of an optimistic create: when the validation guards
pass, the transaction submission throws, and the fresh local id does not occur
in the store, the error handler's filter removes exactly the inserted Pending
row — the proposals list is restored, and the vote/execution status maps are
untouched (the failure path never writes them). -/
theorem c7_create_rollback :
    ∀ (s : UiState) (addr : Option String) (tempLocalId msg : String),
      jsTrim s.description ≠ "" →
      strOptTruthy addr = true →
      (∀ p ∈ s.proposals, p.localId ≠ tempLocalId) →
      (handleCreate s true addr tempLocalId (TxOutcome.fail msg)).proposals =
        s.proposals ∧
      (handleCreate s true addr tempLocalId (TxOutcome.fail msg)).voteStatuses =
        s.voteStatuses ∧
      (handleCreate s true addr tempLocalId (TxOutcome.fail msg)).executionStatuses =
        s.executionStatuses ∧
      (handleCreate s true addr tempLocalId (TxOutcome.fail msg)).createStatus =
        CreateStatus.error := by
  intro s addr tmp msg hdesc haddr hfresh
  have hd : (jsTrim s.description == "") = false := by simpa using hdesc
  have hfilter : ((tempCreateRow tmp s.description (addr.getD "")) :: s.proposals).filter
      (fun p => p.localId != tmp) = s.proposals := by
    rw [List.filter_cons]
    have hh : ((tempCreateRow tmp s.description (addr.getD "")).localId != tmp) = false := by
      simp [tempCreateRow, emptyProposal]
    rw [hh]
    simp only [Bool.false_eq_true, if_false]
    exact List.filter_eq_self.mpr (fun p hp => by simpa using hfresh p hp)
  refine ⟨?_, ?_, ?_, ?_⟩ <;> simp [handleCreate, hd, haddr, hfilter]

/-- Witness for C7: a concrete state with a non-empty description, a connected
wallet and a fresh temporary id; after the submission throws, the proposals
list and the status maps are exactly as before. -/
theorem c7_create_rollback_witness :
    (jsTrim c7State.description ≠ "" ∧
      strOptTruthy (some "0xMe") = true ∧
      (∀ p ∈ c7State.proposals, p.localId ≠ "tmp-uuid-9")) ∧
    ((handleCreate c7State true (some "0xMe") "tmp-uuid-9"
        (TxOutcome.fail "user rejected")).proposals = c7State.proposals ∧
      (handleCreate c7State true (some "0xMe") "tmp-uuid-9"
        (TxOutcome.fail "user rejected")).voteStatuses = c7State.voteStatuses ∧
      (handleCreate c7State true (some "0xMe") "tmp-uuid-9"
        (TxOutcome.fail "user rejected")).executionStatuses =
        c7State.executionStatuses ∧
      (handleCreate c7State true (some "0xMe") "tmp-uuid-9"
        (TxOutcome.fail "user rejected")).createStatus = CreateStatus.error) :=
  ⟨⟨by decide, by decide, by decide⟩,
    c7_create_rollback c7State (some "0xMe") "tmp-uuid-9" "user rejected"
      (by decide) (by decide) (by decide)⟩

/-- C8 (claim vs code): the `Voted` watcher defaults a missing event weight to
`0n` (`(args?.weight as bigint | undefined) ?? 0n`), not 1: ingesting a
weightless Voted event records the normalized voter but leaves the For tally
at 0, where the claim (and the spec) require it to increase by exactly 1. -/
theorem c8_voted_weight_defaults_to_zero :
    ingestVoted [c8Row] (some 1) (some "0xAbCd") (some true) none =
      [{ c8Row with voterStatuses := [("0xabcd", VoteChoice.voteFor)] }] ∧
    (ingestVoted [c8Row] (some 1) (some "0xAbCd") (some true) none).map
      (fun p => p.forVotes) = [0] := by decide

/-- C9: the post-write backend poll is bounded and non-fatal: if every attempt
fails with a 404 the poll returns `null` with nothing logged (a 404 is an
expected transient condition); with the default 10 s deadline and 1 s interval
only attempts 0 through 9 run (a success at attempt 3 is returned, one first
available at attempt 10 is missed and yields `null`); a non-404 failure logs a
warning; and after a `null` poll `handleCreate` leaves the caches in place and
logs a warning instead of failing, while a successful poll is merged. -/
theorem c9_poll_bounded_nonfatal :
    (∀ (responses : Nat → FetchResult) (fuel k : Nat)
        (now deadline intervalMs : Int) (log : List String),
      (∀ j, responses j = FetchResult.err404) →
      pollLoop responses fuel k now deadline intervalMs log = (none, log)) ∧
    pollProposalFromBackend
      (fun k => if k == 3 then FetchResult.found c9Proposal else FetchResult.err404)
      0 = (some c9Proposal, []) ∧
    pollProposalFromBackend
      (fun k => if k ≥ 10 then FetchResult.found c9Proposal else FetchResult.err404)
      0 = (none, []) ∧
    pollProposalFromBackend
      (fun k => if k == 0 then FetchResult.errOther "fetch failed"
        else FetchResult.err404) 0 = (none, ["fetch failed"]) ∧
    (∀ (c : Caches) (createdId : Int),
      afterCreatePoll c none createdId =
        (c, ["Proposal #" ++ toString createdId ++
          " was not available from backend after waiting 10 seconds."])) ∧
    (∀ (c : Caches) (p : BackendProposal) (createdId : Int),
      afterCreatePoll c (some p) createdId = (upsertProposalCaches c p, [])) := by
  refine ⟨?_, by decide, by decide, by decide,
    fun c createdId => rfl, fun c p createdId => rfl⟩
  intro responses fuel k now deadline intervalMs log h
  induction fuel generalizing k now log with
  | zero => rfl
  | succ fuel ih =>
    simp only [pollLoop, h k]
    split
    · exact ih (k + 1) (now + intervalMs) log
    · rfl

/-- Witness for C9: a backend that 404s on every attempt makes the poll (run
with the default parameters) return `null` with an empty log. -/
theorem c9_poll_bounded_nonfatal_witness :
    (∀ j : Nat, (fun _ : Nat => FetchResult.err404) j = FetchResult.err404) ∧
    pollLoop (fun _ : Nat => FetchResult.err404) 11 0 0 10000 1000 [] =
      (none, []) :=
  ⟨fun _ => rfl,
    c9_poll_bounded_nonfatal.1 (fun _ => FetchResult.err404) 11 0 0 10000 1000 []
      (fun _ => rfl)⟩

/-- C10 (implicit frame effect): every chain checkpoint merge resets the
stored entry's `voterStatuses` to the empty record (`mapOnchainStruct` builds
an empty record, and the in-place merge takes the incoming row's record), as
does every `ProposalCreated` row built from `emptyProposal`; consequently a
`Voted` observation already counted before the checkpoint is counted again if
redelivered afterwards — vote-ingestion idempotence holds only between
checkpoints. -/
theorem c10_checkpoint_erases_dedup :
    (∀ (raw : OnchainProposal) (dur : Int),
      (mapOnchainStruct raw dur).voterStatuses = []) ∧
    (∀ (old next : ProposalRow) (nid : String),
      (confirmMerge old next nid).voterStatuses = next.voterStatuses) ∧
    (∀ (id : Int) (descr : String) (creator : Option String),
      (proposalCreatedRow id descr creator).voterStatuses = []) ∧
    (∀ (prev : List ProposalRow) (raw : OnchainProposal) (dur : Int) (i : Nat),
      prev.findIdx? (idMatches (toString raw.id)) = some i →
      ∃ old, prev[i]? = some old ∧
        (refreshProposalFromChain prev raw dur)[i]? =
          some (confirmMerge old (mapOnchainStruct raw dur) (toString raw.id)) ∧
        (confirmMerge old (mapOnchainStruct raw dur)
          (toString raw.id)).voterStatuses = []) ∧
    updateVotes [c10Row] 1 "0xAA" true 2 = [c10Row] ∧
    (updateVotes (refreshProposalFromChain [c10Row] c10Raw 0) 1 "0xAA" true 2).map
      (fun p => p.forVotes) = [7] := by
  refine ⟨fun raw dur => rfl, fun old next nid => rfl,
    fun id descr creator => rfl, ?_, by decide, by decide⟩
  intro prev raw dur i hfind
  have hid : jsGet (mapOnchainStruct raw dur).onchainId = some raw.id := rfl
  obtain ⟨hlt, hp, hbefore⟩ := List.findIdx?_eq_some_iff_getElem.mp hfind
  have hget : prev[i]? = some prev[i] := List.getElem?_eq_getElem hlt
  refine ⟨prev[i], hget, ?_, rfl⟩
  rw [show refreshProposalFromChain prev raw dur =
    updateAt (fun o => confirmMerge o (mapOnchainStruct raw dur) (toString raw.id))
      i prev from upsertProposal_byId prev (mapOnchainStruct raw dur) raw.id i hid hfind]
  exact updateAt_getElem?_self _ i prev _ hget

/-- Witness for C10: the concrete store whose only entry already counted voter
0xaa receives a checkpoint read; the merged entry's `voterStatuses` is the
empty record. -/
theorem c10_checkpoint_erases_dedup_witness :
    ([c10Row].findIdx? (idMatches (toString c10Raw.id)) = some 0) ∧
    (∃ old, [c10Row][0]? = some old ∧
      (refreshProposalFromChain [c10Row] c10Raw 0)[0]? =
        some (confirmMerge old (mapOnchainStruct c10Raw 0) (toString c10Raw.id)) ∧
      (confirmMerge old (mapOnchainStruct c10Raw 0)
        (toString c10Raw.id)).voterStatuses = []) :=
  ⟨by decide,
    c10_checkpoint_erases_dedup.2.2.2.1 [c10Row] c10Raw 0 0 (by decide)⟩


end DaoFe
